import Mathlib

/-!
Verification of the vs-docblockr core: a shallow embedding of the PHP
language module (`src/languages/php.ts`), the docblock renderer
(`src/parser.ts`: `escape`, `renderBlock`, `renderParamTags`,
`renderReturnTag`, `renderVarTag`), the language registration surface
(`src/snippets.ts`), and a model of the token-dispatch state machine.

Machine integers do not occur; all sizes are `Nat`.  Fallible code
(JavaScript runtime exceptions such as reading `.length` of `undefined`,
and the thrown unsupported-language `Error`) is modelled with `Except`.
-/

/-- A function parameter as produced by tokenizing: `name`, default-value
text `val`, and an optional `type` (`none` models a JS object without a
`type` own-property, as tests assert `params[i].type === undefined`). -/
structure Param where
  name : String
  val : String
  type : Option String
deriving DecidableEq, Repr

/-- `tokens.return` of the `Tokens` interface: whether a return value is
present and its optional captured type text. -/
structure RetInfo where
  present : Bool
  type : Option String
deriving DecidableEq, Repr

/-- The `Tokens` interface from `src/parser.ts`: name, kind string
(`"class"` / `"function"` / `"variable"`), parameter list and return
info.  The JS field `return` is called `ret` here (`return` is reserved
in Lean as in TypeScript interfaces it is not). -/
structure Tokens where
  name : String
  type : String
  params : List Param
  ret : RetInfo
deriving DecidableEq, Repr

/-- Read-only configuration consumed by the renderer: `columnSpacing`
(minimum gutter width), `defaultReturnTag`, and the per-language comment
delimiters and end-of-line convention from `Settings`. -/
structure Config where
  columnSpacing : Nat
  defaultReturnTag : Bool
  commentOpen : String
  commentClose : String
  separator : String
  eos : String
deriving Repr

/-- `Array(n + 1).join(' ')` in the source: a string of `n` spaces. -/
def spaces (n : Nat) : String :=
  String.mk (List.replicate n ' ')

/-- The snippet tab-stop placeholder text with index `c` seeded with
`s`, from `renderBlock`'s local `placeholder` closure. -/
def placeholderStr (c : Nat) (s : String) : String :=
  "$\x7b" ++ toString c ++ ":" ++ s ++ "\x7d"

/-- The stateful `placeholder` closure of `renderBlock`: produce the
placeholder for the current count and post-increment the count. -/
def placeholder (c : Nat) (s : String) : String × Nat :=
  (placeholderStr c s, c + 1)

/-- `escape` on the character list: JS `string.replace('$', '\\$')`
with a plain-string pattern replaces only the first occurrence. -/
def escapeChars : List Char → List Char
  | [] => []
  | c :: cs => if c = '$' then '\\' :: '$' :: cs else c :: escapeChars cs

/-- `Parser.escape` from `src/parser.ts`: replace a `$` character with
`\$` (string-pattern `replace`, hence first occurrence only). -/
def escape (s : String) : String :=
  String.mk (escapeChars s.data)

/-- PHP grammar category `class` from `src/languages/php.ts`. -/
def phpClassKw : List String := ["class", "trait"]

/-- PHP grammar category `function`. -/
def phpFunctionKw : List String := ["function"]

/-- PHP grammar category `modifiers`. -/
def phpModifiers : List String :=
  ["public", "static", "protected", "private", "abstract", "final"]

/-- PHP grammar category `types` (built-in type names). -/
def phpTypes : List String :=
  ["self", "array", "callable", "bool", "boolean", "float", "int",
   "integer", "string", "iterable", "stdClass"]

/-- PHP grammar category `variables`. -/
def phpVariables : List String := ["const"]

/-- First-character class of PHP's `classExpression`
`/^[a-zA-Z_\x80-\xff][a-zA-Z0-9_\x80-\xff]*$/`. -/
def classExprFirst (c : Char) : Bool :=
  (('a' ≤ c && c ≤ 'z') || ('A' ≤ c && c ≤ 'Z') || c = '_'
    || (0x80 ≤ c.toNat && c.toNat ≤ 0xff))

/-- Continuation-character class of `classExpression` (adds digits). -/
def classExprRest (c : Char) : Bool :=
  classExprFirst c || ('0' ≤ c && c ≤ '9')

/-- `classExpression.test`: the whole string is one identifier-shaped
match (the regex is anchored on both ends). -/
def classExprTest (s : String) : Bool :=
  match s.data with
  | [] => false
  | c :: cs => classExprFirst c && cs.all classExprRest

/-- `PHP.isType` from `src/languages/php.ts`: not reserved in the
`function` / `class` / `modifiers` / `variables` grammar categories, and
either a built-in type or matching `classExpression`. -/
def isType (t : String) : Bool :=
  let notReserved :=
    !(phpFunctionKw.contains t) && !(phpClassKw.contains t)
      && !(phpModifiers.contains t) && !(phpVariables.contains t)
  let isT := phpTypes.contains t
  notReserved && (isT || classExprTest t)

/-- `/^c/.test(s)` for a single character `c`: the string starts with
that character (the anchored one-character regexes used here). -/
def headIs (s : String) (c : Char) : Bool :=
  match s.data with
  | [] => false
  | a :: _ => a == c

/-- `PHP.isVariableName`: the text begins with the `$` sigil. -/
def isVariableName (s : String) : Bool :=
  headIs s '$'

/-- Character class of the PHP grammar `identifier` pattern
`([a-zA-Z0-9_$\x7f-\xff]+)`. -/
def phpIdentChar (c : Char) : Bool :=
  (('a' ≤ c && c ≤ 'z') || ('A' ≤ c && c ≤ 'Z') || ('0' ≤ c && c ≤ '9')
    || c = '_' || c = '$' || (0x7f ≤ c.toNat && c.toNat ≤ 0xff))

/-- Modelled from the spec: `matchesIdentifier` of the base `Parser`
(not under `src/`) tests a token text against the grammar's
`identifier` pattern; modelled as a non-empty string of identifier
characters. -/
def matchesIdentifier (s : String) : Bool :=
  !s.data.isEmpty && s.data.all phpIdentChar

/-- Modelled from the spec: `isName` of the base `Parser` (not under
`src/`) is true when the token text matches the identifier pattern and
is not a reserved keyword in any grammar category. -/
def isName (s : String) : Bool :=
  matchesIdentifier s
    && !(phpClassKw.contains s) && !(phpFunctionKw.contains s)
    && !(phpModifiers.contains s) && !(phpVariables.contains s)
    && !(phpTypes.contains s)

/-- `PHP.formatNullable` from `src/languages/php.ts`: a leading `?`
marks a nullable type; depending on the `phpMixedUnionTypes`
configuration flag it collapses to `mixed` or becomes a union with
`null`; non-nullable types pass through unchanged. -/
def formatNullable (mixedUnionTypes : Bool) (type : String) : String :=
  if headIs type '?' then
    if mixedUnionTypes then "mixed"
    else type.drop 1 ++ "|null"
  else type

/-- One rendered `@param` row of `renderParamTags`, kept as its seven
concatenated pieces so column positions can be computed; the emitted
line is their flattening. -/
structure ParamLine where
  tag : String
  gutter0 : String
  typeF : String
  tSpace : String
  nameF : String
  pSpace : String
  descF : String
deriving DecidableEq, Repr

/-- The emitted line: the template string
`@param${cSpace} ${type}${tSpace}${name}${pSpace}${desc}`. -/
def ParamLine.flatten (r : ParamLine) : String :=
  r.tag ++ r.gutter0 ++ r.typeF ++ r.tSpace ++ r.nameF ++ r.pSpace ++ r.descF

/-- Character column at which the type field of a `@param` row starts. -/
def ParamLine.typeCol (r : ParamLine) : Nat :=
  r.tag.length + r.gutter0.length

/-- Character column at which the name field of a `@param` row starts. -/
def ParamLine.nameCol (r : ParamLine) : Nat :=
  r.typeCol + r.typeF.length + r.tSpace.length

/-- Character column at which the description field of a `@param` row
starts. -/
def ParamLine.descCol (r : ParamLine) : Nat :=
  r.nameCol + r.nameF.length + r.pSpace.length

/-- The JS runtime error raised when `renderParamTags` evaluates
`param['type'].length` for a parameter without a `type` property. -/
def typeLenErr : String :=
  "TypeError: Cannot read property length of undefined"

/-- `tokens.params.map(param => param['type'].length)` — the map the
`max('type')` helper runs over; throws at the first parameter without a
`type` property. -/
def typeLens : List Param → Except String (List Nat)
  | [] => .ok []
  | p :: ps =>
    match p.type with
    | some t => do
      let rest ← typeLens ps
      .ok (t.length :: rest)
    | none => .error typeLenErr

/-- `max('type')` of `renderParamTags`: the maximum type-text length
over all parameters.  `reduce(Math.max)` on the non-empty length list
equals a fold of `max` from `0` over naturals. -/
def maxTypeE (ps : List Param) : Except String Nat :=
  (typeLens ps).map (fun l => l.foldl max 0)

/-- `max('name')` of `renderParamTags`: maximum name length (always
defined since `name` is a required property). -/
def maxName (ps : List Param) : Nat :=
  (ps.map (fun p => p.name.length)).foldl max 0

/-- One iteration of the `for (let param of tokens.params)` loop of
`renderParamTags`, threading the tab-stop counter.  `mTE` is the
(lazily consumed) value of `max('type')`, evaluated only when the
current parameter has a `type` property, exactly as in the source. -/
def renderParamRow (col mN : Nat) (mTE : Except String Nat) (c : Nat)
    (p : Param) : Except String (ParamLine × Nat) := do
  let diff := mN - p.name.length
  let pSpace := spaces (col + diff)
  let typeDiff ← match p.type with
    | some t => do
      let mT ← mTE
      pure (mT - t.length)
    | none => pure 1
  let tSpace := spaces (col + typeDiff)
  let (typeF, c1) := match p.type with
    | some t => placeholder c (escape t)
    | none => placeholder c "[type]"
  let nameF := escape p.name
  let (descF, c2) := placeholder c1 ("[" ++ nameF ++ " description]")
  pure (⟨"@param", spaces col ++ " ", typeF, tSpace, nameF, pSpace, descF⟩, c2)

/-- The whole parameter loop of `renderParamTags`: one `ParamLine` per
parameter, threading the tab-stop counter left to right. -/
def renderParamRows (col mN : Nat) (mTE : Except String Nat) :
    Nat → List Param → Except String (List ParamLine × Nat)
  | c, [] => .ok ([], c)
  | c, p :: ps => do
    let (row, c1) ← renderParamRow col mN mTE c p
    let (rows, c2) ← renderParamRows col mN mTE c1 ps
    .ok (row :: rows, c2)

/-- `Parser.renderParamTags` from `src/parser.ts`: when the token list
has parameters and is not a variable, append an empty separator line
and one aligned `@param` line per parameter to `blockList`. -/
def renderParamTags (cfg : Config) (tokens : Tokens)
    (blockList : List String) (c : Nat) :
    Except String (List String × Nat) :=
  if tokens.params.length ≠ 0 ∧ tokens.type ≠ "variable" then do
    let (rows, c') ←
      renderParamRows cfg.columnSpacing (maxName tokens.params)
        (maxTypeE tokens.params) c tokens.params
    .ok (blockList ++ [""] ++ rows.map ParamLine.flatten, c')
  else .ok (blockList, c)

/-- `Parser.renderReturnTag` from `src/parser.ts`: when a return value
is present, the return-tag toggle is on and the token is not a
variable, append an empty line and a `@return` line; a falsy (absent or
empty) captured return type renders as the generic `[type]`. -/
def renderReturnTag (cfg : Config) (tokens : Tokens)
    (blockList : List String) (c : Nat) : List String × Nat :=
  if tokens.ret.present && cfg.defaultReturnTag
      && !(tokens.type == "variable") then
    let typeStr := match tokens.ret.type with
      | some t => if t == "" then "[type]" else escape t
      | none => "[type]"
    let (ph, c') := placeholder c typeStr
    (blockList ++ ["", "@return" ++ spaces cfg.columnSpacing ++ ph], c')
  else (blockList, c)

/-- `Parser.renderVarTag` from `src/parser.ts`: variables get an empty
line and a `@var` line with a generic `[type]` placeholder. -/
def renderVarTag (cfg : Config) (tokens : Tokens)
    (blockList : List String) (c : Nat) : List String × Nat :=
  if tokens.type == "variable" then
    let (ph, c') := placeholder c "[type]"
    (blockList ++ ["", "@var" ++ spaces cfg.columnSpacing ++ ph], c')
  else (blockList, c)

/-- `blockList.join(eos)` — JS `Array.prototype.join` with separator. -/
def joinSep (sep : String) : List String → String
  | [] => ""
  | [x] => x
  | x :: y :: xs => x ++ sep ++ joinSep sep (y :: xs)

/-- `Parser.renderBlock` from `src/parser.ts`: seed the description
placeholder (counter restarts at 1), run the param/return/var tag
renderers over the growing block list, and wrap the lines with the
comment delimiters joined by the end-of-line string. -/
def renderBlock (cfg : Config) (tokens : Tokens) : Except String String := do
  let (descPh, c1) :=
    placeholder 1 ("[" ++ escape tokens.name ++ " description]")
  let (bl1, c2) ← renderParamTags cfg tokens [descPh] c1
  let (bl2, c3) := renderReturnTag cfg tokens bl1 c2
  let (bl3, _) := renderVarTag cfg tokens bl2 c3
  .ok (cfg.commentOpen ++ cfg.eos
    ++ joinSep cfg.eos (bl3.map (fun l => cfg.separator ++ l))
    ++ cfg.eos ++ cfg.commentClose)

/-- `renderBlock` as observed from an ambient tab-stop counter state
`amb`: the source declares `let count = 1` locally on every call, so
whatever counter value a previous call left behind is ignored. -/
def renderBlockAmb (cfg : Config) (tokens : Tokens) (_amb : Nat) :
    Except String String :=
  renderBlock cfg tokens

/-- A lexical token as consumed by the handlers: `label` is
`token.type.label` (the acorn token-type label: a keyword or
punctuation mark, or `"name"` for identifiers) and `value` is
`token.value` (`none` models `undefined` on punctuation-only tokens). -/
structure Tok where
  label : String
  value : Option String
deriving DecidableEq, Repr

/-- The three `SymbolKind` values the handlers assign. -/
inductive SymbolKind where
  | Class
  | Function
  | Variable
deriving DecidableEq, Repr

/-- Modelled from the spec: the `Symbols` accumulator of a parse run
(the `Symbols` class is not under `src/`): name, kind (unset
initially), parameter list, and the return-type string that
`parseFunction` appends to (initially empty). -/
structure Symbols where
  name : String
  type : Option SymbolKind
  params : List Param
  retType : String
deriving DecidableEq, Repr

/-- Modelled from the spec: the transient per-run expectation flags of
the parse state machine together with the accumulator. -/
structure ParseState where
  symbols : Symbols
  expectName : Bool
  expectParameter : Bool
  expectParameterType : Bool
  expectReturnType : Bool
  done : Bool
deriving DecidableEq, Repr

/-- The fresh state a tokenize call starts from. -/
def initState : ParseState :=
  ⟨⟨"", none, [], ""⟩, false, false, false, false, false⟩

/-- `this.grammar.is(token.value, cat)` lifted over a possibly absent
token value: an `undefined` value is in no category. -/
def tokenIs (v : Option String) (cat : List String) : Bool :=
  match v with
  | some s => cat.contains s
  | none => false

/-- The classifiers lifted over a possibly absent token value (in JS a
regex test against `undefined` stringifies it, never matching these
patterns). -/
def isNameV (v : Option String) : Bool :=
  match v with
  | some s => isName s
  | none => false

/-- `isVariableName(token.value)` over a possibly absent value. -/
def isVariableNameV (v : Option String) : Bool :=
  match v with
  | some s => isVariableName s
  | none => false

/-- `matchesIdentifier(token.value)` over a possibly absent value. -/
def matchesIdentifierV (v : Option String) : Bool :=
  match v with
  | some s => matchesIdentifier s
  | none => false

/-- Truthiness of `token.value`: present and non-empty. -/
def truthyV (v : Option String) : Bool :=
  match v with
  | some s => !(s == "")
  | none => false

/-- `PHP.parseClass` from `src/languages/php.ts`: a class keyword sets
the kind and expects a name; the expected name, when kind is Class,
completes the declaration (`done`). -/
def parseClass (tok : Tok) (st : ParseState) : ParseState :=
  if tokenIs tok.value phpClassKw then
    { st with symbols := { st.symbols with type := some .Class },
              expectName := true }
  else if st.expectName && st.symbols.type == some .Class
      && isNameV tok.value then
    { st with symbols := { st.symbols with name := tok.value.getD "" },
              expectName := false, done := true }
  else st

/-- `PHP.parseFunction` from `src/languages/php.ts`: a function keyword
sets the kind and expects a name; while the kind is Function, a `[`
token appends `[]` to the return type, the expected name is captured, a
`:` outside the parameter list starts a return type, and the next
identifier while one is expected becomes the return type. -/
def parseFunction (tok : Tok) (st : ParseState) : ParseState :=
  if tokenIs tok.value phpFunctionKw then
    { st with symbols := { st.symbols with type := some .Function },
              expectName := true }
  else if st.symbols.type == some .Function then
    if tok.label == "[" then
      { st with symbols :=
          { st.symbols with retType := st.symbols.retType ++ "[]" } }
    else if st.expectName && isNameV tok.value then
      { st with symbols := { st.symbols with name := tok.value.getD "" },
                expectName := false }
    else if tok.label == ":" && !st.expectParameter then
      { st with expectReturnType := true }
    else if st.expectReturnType && matchesIdentifierV tok.value then
      { st with symbols := { st.symbols with retType := tok.value.getD "" },
                expectReturnType := false }
    else st
  else st

/-- `PHP.parseParameterName` from `src/languages/php.ts`: inside the
parameter list, a `$`-sigil token appends a new untyped parameter —
but only when no parameter type is pending (`notType`). -/
def parseParameterName (tok : Tok) (st : ParseState) : ParseState :=
  if st.expectParameter && isVariableNameV tok.value
      && !st.expectParameterType then
    { st with symbols :=
        { st.symbols with
            params := st.symbols.params ++ [⟨tok.value.getD "", "", none⟩] } }
  else st

/-- Replace the name of the last parameter, as
`symbols.getParameter(symbols.getLastParameterIndex())` followed by the
name assignment does (no parameter: unchanged). -/
def setLastParamName (ps : List Param) (n : String) : List Param :=
  match ps with
  | [] => []
  | [p] => [{ p with name := n }]
  | p :: q :: rest => p :: setLastParamName (q :: rest) n

/-- The first `if` of `PHP.parseParameterType` from
`src/languages/php.ts`: a truthy token recognized as a type while a
parameter is expected appends a new parameter carrying that type and
raises `expectParameterType` (which nothing ever clears). -/
def parseParameterTypeAdd (tok : Tok) (st : ParseState) : ParseState :=
  if truthyV tok.value && isType (tok.value.getD "")
      && st.expectParameter then
    { st with
        expectParameterType := true,
        symbols :=
          { st.symbols with
              params := st.symbols.params
                ++ [⟨"", "", some (tok.value.getD "")⟩] } }
  else st

/-- The second `if` of `parseParameterType`: while a parameter type is
pending, a `$`-sigil token renames the most recently added parameter. -/
def parseParameterTypeName (tok : Tok) (st : ParseState) : ParseState :=
  if st.expectParameterType && isVariableNameV tok.value then
    { st with symbols :=
        { st.symbols with
            params := setLastParamName st.symbols.params
              (tok.value.getD "") } }
  else st

/-- The two `if` statements of `parseParameterType` in sequence. -/
def parseParameterType (tok : Tok) (st : ParseState) : ParseState :=
  parseParameterTypeName tok (parseParameterTypeAdd tok st)

/-- The opening `if` of `PHP.parseParameters` from
`src/languages/php.ts`: `(` opens the parameter list. -/
def parseParamOpen (tok : Tok) (st : ParseState) : ParseState :=
  if tok.label == "(" then { st with expectParameter := true } else st

/-- The closing `if` of `parseParameters`: `)` closes the list. -/
def parseParamClose (tok : Tok) (st : ParseState) : ParseState :=
  if tok.label == ")" then { st with expectParameter := false } else st

/-- The body of `parseParameters` for Function kind, in source order. -/
def parseParametersBody (tok : Tok) (st : ParseState) : ParseState :=
  parseParamClose tok
    (parseParameterType tok (parseParameterName tok (parseParamOpen tok st)))

/-- `PHP.parseParameters` composed: only while the kind is Function. -/
def parseParameters (tok : Tok) (st : ParseState) : ParseState :=
  if st.symbols.type == some .Function then parseParametersBody tok st
  else st

/-- The first `if` of `PHP.parseVariable` from `src/languages/php.ts`:
with the kind still unset, a `$`-sigil token names the symbol and sets
kind Variable in one step (no early return). -/
def parseVariableSigil (tok : Tok) (st : ParseState) : ParseState :=
  if st.symbols.type == none && isVariableNameV tok.value then
    { st with symbols :=
        { st.symbols with name := tok.value.getD "",
                          type := some .Variable } }
  else st

/-- The remaining `if` statements of `parseVariable`: a variable
keyword sets kind Variable and expects a name; the expected name is
then the next truthy token. -/
def parseVariableRest (tok : Tok) (st : ParseState) : ParseState :=
  if st.symbols.type == none && tokenIs tok.value phpVariables then
    { st with symbols := { st.symbols with type := some .Variable },
              expectName := true }
  else if st.symbols.type == some .Variable && st.expectName
      && truthyV tok.value then
    { st with symbols := { st.symbols with name := tok.value.getD "" },
              expectName := false }
  else st

/-- `PHP.parseVariable` composed from its `if` statements in source
order. -/
def parseVariable (tok : Tok) (st : ParseState) : ParseState :=
  parseVariableRest tok (parseVariableSigil tok st)

/-- Modelled from the spec: the per-token dispatch of the base
`Parser.tokenize` loop (not under `src/`), in the spec's rule order —
once `done`, tokens are no longer dispatched to the class / function /
variable handlers, and only the parameter handler may continue inside
a parameter list opened before `done`. -/
def phpStep (st : ParseState) (tok : Tok) : ParseState :=
  if st.done then
    if st.expectParameter then parseParameters tok st else st
  else
    parseVariable tok (parseParameters tok (parseFunction tok
      (parseClass tok st)))

/-- Run the dispatch loop over a token sequence from the fresh state. -/
def phpProcess (toks : List Tok) : ParseState :=
  toks.foldl phpStep initState

/-- The kind string of the returned `Tokens` record (the PHP tests
compare `token.type` against the strings `'class'` / `'function'` /
`'variable'`). -/
def kindString : Option SymbolKind → String
  | some .Class => "class"
  | some .Function => "function"
  | some .Variable => "variable"
  | none => ""

/-- Modelled from the spec: finalization of a parse run into a `Tokens`
record.  The nullable post-processing (`formatNullable`) is applied as
a final transform over every captured type string.  `returnInfo.present`
is modelled as true exactly for Function kind: the repository's own
tests pin this (`php.test.ts` asserts `token.return.present` is `false`
for `'class Bar {'` and for variables, `true` for functions), which
also covers the spec's `false`-for-Variable default. -/
def finalize (mixedUnionTypes : Bool) (st : ParseState) : Tokens :=
  { name := st.symbols.name
    type := kindString st.symbols.type
    params := st.symbols.params.map (fun p =>
      { p with type := p.type.map (formatNullable mixedUnionTypes) })
    ret :=
      { present := st.symbols.type == some .Function
        type :=
          if st.symbols.retType == "" then none
          else some (formatNullable mixedUnionTypes st.symbols.retType) } }

/-- Modelled from the spec: `tokenize` for the PHP module — run the
dispatch loop and finalize. -/
def phpTokenize (mixedUnionTypes : Bool) (toks : List Tok) : Tokens :=
  finalize mixedUnionTypes (phpProcess toks)

/-- The language modules registered in `Snippets.languageList`
(`src/snippets.ts`); `javascript`, `typescript` and `vue` all map to
the TypeScript module. -/
inductive LanguageModule where
  | C
  | Java
  | PHP
  | SCSS
  | TypeScript
deriving DecidableEq, Repr

/-- `Snippets.languageList` from `src/snippets.ts`. -/
def languageList : List (String × LanguageModule) :=
  [("c", .C), ("java", .Java), ("javascript", .TypeScript),
   ("php", .PHP), ("scss", .SCSS), ("typescript", .TypeScript),
   ("vue", .TypeScript)]

/-- `Snippets.getParserFromLanguageID` from `src/snippets.ts`: an
unregistered language ID throws, a registered one instantiates its
module. -/
def getParserFromLanguageID (language : String) :
    Except String LanguageModule :=
  match languageList.lookup language with
  | some m => .ok m
  | none => .error ("This language is not supported: " ++ language)

/-- Token sequence of the source line `function foo(int $a, $b) {`
(acorn labels; punctuation tokens carry no value). -/
def mixedParamToks : List Tok :=
  [⟨"function", some "function"⟩, ⟨"name", some "foo"⟩, ⟨"(", none⟩,
   ⟨"name", some "int"⟩, ⟨"name", some "$a"⟩, ⟨",", none⟩,
   ⟨"name", some "$b"⟩, ⟨")", none⟩, ⟨"\x7b", none⟩]

/-- Token sequence of the source line `class Bar {`. -/
def classBarToks : List Tok :=
  [⟨"class", some "class"⟩, ⟨"name", some "Bar"⟩, ⟨"\x7b", none⟩]

/-- Token sequence of the bare variable declaration `$foo;` (no
initializer). -/
def bareVarToks : List Tok :=
  [⟨"name", some "$foo"⟩, ⟨";", none⟩]

/-- Two untyped parameters whose rendered names change length by
different amounts under `escape` (`$a` gains a backslash, `bb` does
not). -/
def cxParams : List Param := [⟨"$a", "", none⟩, ⟨"bb", "", none⟩]

/-- Modelled from the claim under test (C2): a class-name-shaped
identifier whose first character is capitalized. -/
def capitalizedClassShaped (s : String) : Bool :=
  match s.data with
  | [] => false
  | c :: cs => ('A' ≤ c && c ≤ 'Z') && cs.all classExprRest

/-- Modelled from the claim under test (C2): membership in the built-in
type set, or a capitalized class-shaped identifier that is reserved in
none of the class / function / modifier / variable categories. -/
def isTypeClaim (t : String) : Bool :=
  phpTypes.contains t ||
  (capitalizedClassShaped t
    && !(phpClassKw.contains t) && !(phpFunctionKw.contains t)
    && !(phpModifiers.contains t) && !(phpVariables.contains t))

/-- All reserved keywords of the four non-type grammar categories, as
one set. -/
def phpReservedAll : List String :=
  phpFunctionKw ++ phpClassKw ++ phpModifiers ++ phpVariables

/-- The amended characterization of `isType`: not reserved in the
class / function / modifier / variable categories, and either a
built-in type or any identifier-shaped word — capitalization of the
first character plays no role. -/
def isTypeAmended (t : String) : Bool :=
  !(phpReservedAll.contains t) && (phpTypes.contains t || classExprTest t)

/-- The language identifiers registered in `Snippets.languageList`. -/
def registeredLanguageIDs : List String := languageList.map Prod.fst

/-- A concrete rendering configuration (the documented defaults:
column spacing 2, return tag on, default comment delimiters). -/
def cfg0 : Config := ⟨2, true, "/**", " */", " * ", "\n"⟩

/-- A Function record mixing a typed with an untyped parameter. -/
def mixTok : Tokens :=
  ⟨"foo", "function", [⟨"$a", "", some "int"⟩, ⟨"$b", "", none⟩],
   ⟨true, none⟩⟩

/-- A Function record whose parameters all carry types. -/
def goodTok : Tokens :=
  ⟨"foo", "function", [⟨"$a", "", some "int"⟩, ⟨"$bb", "", some "bool"⟩],
   ⟨true, none⟩⟩

/-- The Function record holding `cxParams`. -/
def cxTokens : Tokens := ⟨"foo", "function", cxParams, ⟨true, none⟩⟩

/-- The value `max('type')` computes when every parameter has a type:
the maximum type-text length. -/
def maxTypeVal (ps : List Param) : Nat :=
  (ps.map (fun p => (p.type.getD "").length)).foldl max 0

/-- C1: on `function foo(int $a, $b) {` the handlers never clear
`expectParameterType`, so the untyped `$b` renames the single typed
parameter instead of starting a second one: the run ends with one
parameter named `$b` of type `int`, not two parameters. -/
theorem phpParse_typed_then_untyped_renames :
    (phpTokenize false mixedParamToks).params = [⟨"$b", "", some "int"⟩]
      ∧ (phpTokenize false mixedParamToks).params.length ≠ 2 := by
  decide

/-- C2 counterexample: `isType "foo"` is `true` although `foo` is a
lowercase identifier outside the built-in type set, so the claimed
characterization (which requires a capitalized first character) is
false at `"foo"`. -/
theorem isType_lowercase_counterexample :
    isType "foo" = true ∧ isTypeClaim "foo" = false := by
  decide

/-- C3 counterexample: tokenizing `class Bar {` yields kind Class with
`returnInfo.present = false`, refuting the claim that `present`
defaults to `true` for Class kind. -/
theorem classKind_returnPresent_counterexample :
    (phpTokenize false classBarToks).type = "class"
      ∧ (phpTokenize false classBarToks).ret.present = false := by
  decide

/-- C3 amended: `returnInfo.present` is true exactly when the parsed
kind is Function (false for Class and Variable); and tokenizing the
bare variable declaration `$foo;` yields kind Variable, an empty
parameter list and `returnInfo.present = false`. -/
theorem returnPresent_iff_function (flag : Bool) (ts : List Tok) :
    (phpTokenize flag ts).ret.present
        = ((phpTokenize flag ts).type == "function")
      ∧ (phpTokenize false bareVarToks).name = "$foo"
      ∧ (phpTokenize false bareVarToks).type = "variable"
      ∧ (phpTokenize false bareVarToks).params = []
      ∧ (phpTokenize false bareVarToks).ret.present = false := by
  refine ⟨?_, by decide, by decide, by decide, by decide⟩
  unfold phpTokenize finalize
  rcases h : (phpProcess ts).symbols.type with _ | k
  · rfl
  · cases k <;> rfl

/-- C8: `escape` rewrites only the first `$` of `$a$b`; the second
occurrence stays unescaped, contradicting the all-occurrences claim. -/
theorem escape_first_dollar_only :
    escape "$a$b" = "\\$a$b" ∧ escape "$a$b" ≠ "\\$a\\$b" := by
  decide

/-- C9 counterexample: after `class` the kind is Class, yet a later
`function` keyword token reassigns it to Function — the kind is not
set at most once over arbitrary token sequences. -/
theorem kind_reassigned_counterexample :
    (phpProcess [⟨"class", some "class"⟩]).symbols.type
        = some SymbolKind.Class
      ∧ (phpProcess [⟨"class", some "class"⟩,
          ⟨"function", some "function"⟩]).symbols.type
        = some SymbolKind.Function
      ∧ SymbolKind.Class ≠ SymbolKind.Function := by
  decide

/-- C6: a type beginning with the nullability sigil `?` becomes
`mixed` under the mixed-union-types flag and otherwise the sigil-free
type joined with `|null`; a type without the sigil is unchanged. -/
theorem formatNullable_spec (mixed : Bool) (t : String) :
    (headIs t '?' = true →
      formatNullable mixed t =
        if mixed then "mixed" else t.drop 1 ++ "|null")
    ∧ (headIs t '?' = false → formatNullable mixed t = t) := by
  constructor <;> intro h <;> simp [formatNullable, h]

/-- C6 witness: the nullable type `?int` under both policies and the
plain type `int`. -/
theorem formatNullable_spec_witness :
    (headIs "?int" '?' = true ∧ headIs "int" '?' = false)
    ∧ formatNullable true "?int" = "mixed"
    ∧ formatNullable false "?int" = "int|null"
    ∧ formatNullable false "int" = "int" :=
  ⟨by decide,
   ((formatNullable_spec true "?int").1 (by decide)).trans (by decide),
   ((formatNullable_spec false "?int").1 (by decide)).trans (by decide),
   (formatNullable_spec false "int").2 (by decide)⟩

theorem lookup_of_contains {β : Type} (l : List (String × β)) (s : String) :
    ((l.map Prod.fst).contains s = true → ∃ m, l.lookup s = some m)
    ∧ ((l.map Prod.fst).contains s = false → l.lookup s = none) := by
  induction l with
  | nil =>
    refine ⟨fun h => ?_, fun _ => rfl⟩
    simp [List.contains] at h
  | cons p tl ih =>
    constructor <;> intro h
    · by_cases he : s == p.1
      · exact ⟨p.2, by simp [List.lookup, he]⟩
      · simp only [List.map, List.contains_cons] at h
        rcases Bool.or_eq_true_iff.mp h with h1 | h1
        · exact absurd h1 (by simpa using he)
        · obtain ⟨m, hm⟩ := ih.1 h1
          exact ⟨m, by simp [List.lookup, he, hm]⟩
    · simp only [List.map, List.contains_cons, Bool.or_eq_false_iff] at h
      have := ih.2 h.2
      simp [List.lookup, h.1, this]

/-- C7 counterexample: unsupported-language resolution is not the only
caller-visible failure of the core — rendering a Function record that
mixes a typed with an untyped parameter also fails, with a runtime
type error escaping `renderParamTags`. -/
theorem coreFailure_not_only_resolution :
    renderBlock cfg0 mixTok = Except.error typeLenErr := by
  rfl

/-- C7 amended: resolving a language identifier yields a parser module
exactly for the registered identifiers (c, java, javascript, php, scss,
typescript, vue) and fails with the `This language is not supported`
error for every other identifier; this is the only failure of the
resolution surface, though not of the whole core (the renderer can
also fail, see `renderParamTags`). -/
theorem getParserFromLanguageID_amended (s : String) :
    (registeredLanguageIDs.contains s = true →
      ∃ m, getParserFromLanguageID s = Except.ok m)
    ∧ (registeredLanguageIDs.contains s = false →
      getParserFromLanguageID s =
        Except.error ("This language is not supported: " ++ s)) := by
  constructor <;> intro h
  · obtain ⟨m, hm⟩ := (lookup_of_contains languageList s).1 h
    exact ⟨m, by simp [getParserFromLanguageID, hm]⟩
  · have := (lookup_of_contains languageList s).2 h
    simp [getParserFromLanguageID, this]

/-- C7 witness: `php` resolves to the PHP module, `cobol` fails with
the unsupported-language error. -/
theorem getParserFromLanguageID_amended_witness :
    (registeredLanguageIDs.contains "php" = true
      ∧ registeredLanguageIDs.contains "cobol" = false)
    ∧ (∃ m, getParserFromLanguageID "php" = Except.ok m)
    ∧ getParserFromLanguageID "cobol" =
        Except.error ("This language is not supported: " ++ "cobol") :=
  ⟨by decide,
   (getParserFromLanguageID_amended "php").1 (by decide),
   (getParserFromLanguageID_amended "cobol").2 (by decide)⟩

theorem contains_append (l1 l2 : List String) (a : String) :
    (l1 ++ l2).contains a = (l1.contains a || l2.contains a) := by
  induction l1 with
  | nil => simp [List.contains]
  | cons x xs ih =>
    simp only [List.cons_append, List.contains_cons, ih, Bool.or_assoc]

/-- C2 amended: `isType` accepts exactly the words that are reserved in
none of the class / function / modifier / variable grammar categories
and are either built-in types or identifier-shaped — with no
capitalization requirement on the first character. -/
theorem isType_amended_eq (t : String) : isType t = isTypeAmended t := by
  simp only [isType, isTypeAmended, phpReservedAll, contains_append,
    Bool.not_or, Bool.and_assoc]

theorem parseParameterName_type (tok : Tok) (st : ParseState) :
    (parseParameterName tok st).symbols.type = st.symbols.type := by
  unfold parseParameterName
  split <;> rfl

theorem parseParameterTypeAdd_type (tok : Tok) (st : ParseState) :
    (parseParameterTypeAdd tok st).symbols.type = st.symbols.type := by
  unfold parseParameterTypeAdd
  split <;> rfl

theorem parseParameterTypeName_type (tok : Tok) (st : ParseState) :
    (parseParameterTypeName tok st).symbols.type = st.symbols.type := by
  unfold parseParameterTypeName
  split <;> rfl

theorem parseParamOpen_type (tok : Tok) (st : ParseState) :
    (parseParamOpen tok st).symbols.type = st.symbols.type := by
  unfold parseParamOpen
  split <;> rfl

theorem parseParamClose_type (tok : Tok) (st : ParseState) :
    (parseParamClose tok st).symbols.type = st.symbols.type := by
  unfold parseParamClose
  split <;> rfl

theorem parseParameters_type (tok : Tok) (st : ParseState) :
    (parseParameters tok st).symbols.type = st.symbols.type := by
  unfold parseParameters parseParametersBody parseParameterType
  split
  · rw [parseParamClose_type, parseParameterTypeName_type,
      parseParameterTypeAdd_type, parseParameterName_type,
      parseParamOpen_type]
  · rfl

theorem parseClass_type_of_not_kw (tok : Tok) (st : ParseState)
    (hc : tokenIs tok.value phpClassKw = false) :
    (parseClass tok st).symbols.type = st.symbols.type := by
  unfold parseClass
  split
  · simp_all
  · split <;> rfl

theorem parseFunction_type_of_not_kw (tok : Tok) (st : ParseState)
    (hf : tokenIs tok.value phpFunctionKw = false) :
    (parseFunction tok st).symbols.type = st.symbols.type := by
  unfold parseFunction
  split
  · simp_all
  · split
    · split
      · rfl
      · split
        · rfl
        · split
          · rfl
          · split <;> rfl
    · rfl

theorem parseVariableSigil_type_of_some (tok : Tok) (st : ParseState)
    (k : SymbolKind) (hk : st.symbols.type = some k) :
    (parseVariableSigil tok st).symbols.type = some k := by
  unfold parseVariableSigil
  split
  · simp_all
  · exact hk

theorem parseVariableRest_type_of_some (tok : Tok) (st : ParseState)
    (k : SymbolKind) (hk : st.symbols.type = some k) :
    (parseVariableRest tok st).symbols.type = some k := by
  unfold parseVariableRest
  split
  · simp_all
  · split
    · exact hk
    · exact hk

theorem parseVariable_type_of_some (tok : Tok) (st : ParseState)
    (k : SymbolKind) (hk : st.symbols.type = some k) :
    (parseVariable tok st).symbols.type = some k := by
  unfold parseVariable
  exact parseVariableRest_type_of_some _ _ k
    (parseVariableSigil_type_of_some _ _ k hk)

/-- C9 amended: once a handler has assigned a kind, a later token that
is itself neither a class keyword nor a function keyword cannot change
it: `parseVariable` and name-shaped tokens never overwrite a set kind,
which only a later `class`/`trait`/`function` keyword token can do. -/
theorem kind_stable_amended (st : ParseState) (tok : Tok) (k : SymbolKind)
    (hk : st.symbols.type = some k)
    (hc : tokenIs tok.value phpClassKw = false)
    (hf : tokenIs tok.value phpFunctionKw = false) :
    (phpStep st tok).symbols.type = some k := by
  unfold phpStep
  split
  · split
    · rw [parseParameters_type, hk]
    · exact hk
  · have h1 : (parseClass tok st).symbols.type = some k := by
      rw [parseClass_type_of_not_kw tok st hc, hk]
    have h2 : (parseFunction tok (parseClass tok st)).symbols.type
        = some k := by
      rw [parseFunction_type_of_not_kw _ _ hf, h1]
    have h3 : (parseParameters tok (parseFunction tok
        (parseClass tok st))).symbols.type = some k := by
      rw [parseParameters_type, h2]
    exact parseVariable_type_of_some _ _ k h3

/-- C9 witness: the state after `function` has kind Function, and the
name token `x` (no class or function keyword) leaves it unchanged. -/
theorem kind_stable_amended_witness :
    ((phpProcess [⟨"function", some "function"⟩]).symbols.type
        = some SymbolKind.Function
      ∧ tokenIs (some "x") phpClassKw = false
      ∧ tokenIs (some "x") phpFunctionKw = false)
    ∧ (phpStep (phpProcess [⟨"function", some "function"⟩])
        ⟨"name", some "x"⟩).symbols.type = some SymbolKind.Function :=
  ⟨by decide,
   kind_stable_amended (phpProcess [⟨"function", some "function"⟩])
     ⟨"name", some "x"⟩ SymbolKind.Function (by decide) (by decide)
     (by decide)⟩

theorem typeLens_error_of_none (ps : List Param)
    (h : ∃ p ∈ ps, p.type = none) :
    typeLens ps = Except.error typeLenErr := by
  induction ps with
  | nil => obtain ⟨p, hp, _⟩ := h; cases hp
  | cons q qs ih =>
    obtain ⟨p, hp, hpt⟩ := h
    rcases List.mem_cons.mp hp with rfl | hmem
    · simp [typeLens, hpt]
    · cases hq : q.type with
      | some t =>
        simp only [typeLens, hq, ih ⟨p, hmem, hpt⟩]
        rfl
      | none => simp [typeLens, hq]

theorem renderParamRows_error_of_typed (col mN : Nat) (e : String)
    (c : Nat) (ps : List Param) (h : ∃ p ∈ ps, p.type ≠ none) :
    renderParamRows col mN (Except.error e) c ps = Except.error e := by
  induction ps generalizing c with
  | nil => obtain ⟨p, hp, _⟩ := h; cases hp
  | cons q qs ih =>
    obtain ⟨p, hp, hpt⟩ := h
    rcases List.mem_cons.mp hp with rfl | hmem
    · cases hq : p.type with
      | some t =>
        simp only [renderParamRows, renderParamRow, hq]
        rfl
      | none => exact absurd hq hpt
    · cases hq : q.type with
      | some t =>
        simp only [renderParamRows, renderParamRow, hq]
        rfl
      | none =>
        simp only [renderParamRows, renderParamRow, hq, placeholder,
          ih _ ⟨p, hmem, hpt⟩]
        rfl

/-- C10: rendering the parameter tags of a Function record that mixes
a typed parameter with an untyped one fails with the runtime type
error from computing every parameter's type length, instead of
producing comment lines. -/
theorem renderParamTags_mixed_type_error (cfg : Config) (tokens : Tokens)
    (bl : List String) (c : Nat)
    (hf : tokens.type = "function")
    (h1 : ∃ p ∈ tokens.params, p.type ≠ none)
    (h2 : ∃ q ∈ tokens.params, q.type = none) :
    renderParamTags cfg tokens bl c = Except.error typeLenErr := by
  have hne : tokens.params.length ≠ 0 := by
    obtain ⟨p, hp, _⟩ := h1
    exact List.length_pos.mpr (List.ne_nil_of_mem hp) |>.ne'
  have hv : tokens.type ≠ "variable" := by rw [hf]; decide
  have hmax : maxTypeE tokens.params = Except.error typeLenErr := by
    unfold maxTypeE
    rw [typeLens_error_of_none tokens.params h2]
    rfl
  unfold renderParamTags
  rw [if_pos ⟨hne, hv⟩, hmax,
    renderParamRows_error_of_typed _ _ _ _ _ h1]
  rfl

/-- C10 witness: the concrete mixed record `mixTok` (typed `$a : int`,
untyped `$b`) makes `renderParamTags` fail. -/
theorem renderParamTags_mixed_type_error_witness :
    (mixTok.type = "function"
      ∧ (∃ p ∈ mixTok.params, p.type ≠ none)
      ∧ (∃ q ∈ mixTok.params, q.type = none))
    ∧ renderParamTags cfg0 mixTok [] 2 = Except.error typeLenErr :=
  ⟨⟨by decide, by decide, by decide⟩,
   renderParamTags_mixed_type_error cfg0 mixTok [] 2 (by decide)
     (by decide) (by decide)⟩

theorem renderParamTags_extends (cfg : Config) (tokens : Tokens)
    (bl bl1 : List String) (c c2 : Nat)
    (h : renderParamTags cfg tokens bl c = Except.ok (bl1, c2)) :
    ∃ ext, bl1 = bl ++ ext := by
  unfold renderParamTags at h
  split at h
  · cases hr : renderParamRows cfg.columnSpacing (maxName tokens.params)
        (maxTypeE tokens.params) c tokens.params with
    | error e => rw [hr] at h; cases h
    | ok pr =>
      rw [hr] at h
      obtain ⟨h1, _⟩ := Prod.mk.injEq .. ▸ Except.ok.inj h
      exact ⟨[""] ++ pr.1.map ParamLine.flatten,
        by rw [← h1, List.append_assoc]⟩
  · obtain ⟨h1, _⟩ := Prod.mk.injEq .. ▸ Except.ok.inj h
    exact ⟨[], by rw [← h1, List.append_nil]⟩

theorem renderReturnTag_extends (cfg : Config) (tokens : Tokens)
    (bl : List String) (c : Nat) :
    ∃ ext, (renderReturnTag cfg tokens bl c).1 = bl ++ ext := by
  unfold renderReturnTag
  split
  · exact ⟨_, rfl⟩
  · exact ⟨[], (List.append_nil bl).symm⟩

theorem renderVarTag_extends (cfg : Config) (tokens : Tokens)
    (bl : List String) (c : Nat) :
    ∃ ext, (renderVarTag cfg tokens bl c).1 = bl ++ ext := by
  unfold renderVarTag
  split
  · exact ⟨_, rfl⟩
  · exact ⟨[], (List.append_nil bl).symm⟩

theorem joinSep_cons (sep x : String) (xs : List String) :
    ∃ r, joinSep sep (x :: xs) = x ++ r := by
  cases xs with
  | nil => exact ⟨"", by simp [joinSep, String.append_empty]⟩
  | cons y ys =>
    exact ⟨sep ++ joinSep sep (y :: ys),
      by simp [joinSep, String.append_assoc]⟩

/-- C5: rendering is deterministic — with the same record and
configuration the output is byte-identical no matter what counter
value an earlier call left in the environment (the tab-stop counter is
re-initialized locally), and whenever rendering succeeds the first
emitted placeholder of the output is numbered 1 (the description
placeholder), so numbering restarts at 1 on each call. -/
theorem renderBlock_deterministic_numbering (cfg : Config)
    (tokens : Tokens) (a b : Nat) :
    renderBlockAmb cfg tokens a = renderBlockAmb cfg tokens b
    ∧ ((∃ e, renderBlock cfg tokens = Except.error e)
      ∨ ∃ rest, renderBlock cfg tokens =
          Except.ok (cfg.commentOpen ++ cfg.eos ++ cfg.separator
            ++ placeholderStr 1 ("[" ++ escape tokens.name
              ++ " description]") ++ rest)) := by
  refine ⟨rfl, ?_⟩
  cases hr : renderParamTags cfg tokens
      [placeholderStr 1 ("[" ++ escape tokens.name ++ " description]")]
      2 with
  | error e =>
    left
    exact ⟨e, by simp only [renderBlock, placeholder, hr]; rfl⟩
  | ok pr =>
    right
    obtain ⟨ext1, he1⟩ := renderParamTags_extends cfg tokens _ pr.1 2
      pr.2 (by rw [hr])
    obtain ⟨ext2, he2⟩ := renderReturnTag_extends cfg tokens pr.1 pr.2
    obtain ⟨ext3, he3⟩ := renderVarTag_extends cfg tokens
      (renderReturnTag cfg tokens pr.1 pr.2).1
      (renderReturnTag cfg tokens pr.1 pr.2).2
    have hcons : (renderVarTag cfg tokens
        (renderReturnTag cfg tokens pr.1 pr.2).1
        (renderReturnTag cfg tokens pr.1 pr.2).2).1
        = placeholderStr 1 ("[" ++ escape tokens.name ++ " description]")
          :: (ext1 ++ ext2 ++ ext3) := by
      rw [he3, he2, he1]
      simp [List.append_assoc]
    obtain ⟨r, hj⟩ := joinSep_cons cfg.eos
      (cfg.separator ++ placeholderStr 1
        ("[" ++ escape tokens.name ++ " description]"))
      ((ext1 ++ ext2 ++ ext3).map (fun l => cfg.separator ++ l))
    refine ⟨r ++ cfg.eos ++ cfg.commentClose, ?_⟩
    simp only [renderBlock, placeholder, hr]
    show Except.ok _ = _
    rw [hcons]
    simp only [List.map_cons, hj]
    simp [String.append_assoc]

/-- C4 counterexample: the two untyped parameters `$a` and `bb` render
into `@param` lines whose description fields start at columns 28 and
27 respectively — the rows are not column-aligned, because the padding
is computed from the raw name lengths while the printed name of `$a`
gains an escaping backslash and `bb` does not. -/
theorem paramAlignment_counterexample :
    renderParamTags cfg0 cxTokens [] 2 = Except.ok
      (["",
        "@param   $\x7b2:[type]\x7d   \\$a  $\x7b3:[\\$a description]\x7d",
        "@param   $\x7b4:[type]\x7d   bb  $\x7b5:[bb description]\x7d"], 6)
    ∧ (renderParamRows 2 (maxName cxParams) (maxTypeE cxParams) 2
        cxParams).map (fun rc => rc.1.map ParamLine.descCol)
      = Except.ok [28, 27]
    ∧ (28 : Nat) ≠ 27 :=
  ⟨rfl, rfl, by decide⟩

theorem spaces_length (n : Nat) : (spaces n).length = n := by
  simp [spaces]

theorem placeholderStr_length (c : Nat) (s : String) :
    (placeholderStr c s).length = 4 + (toString c).length + s.length := by
  have h1 : ("$\x7b" : String).length = 2 := rfl
  have h2 : (":" : String).length = 1 := rfl
  have h3 : ("\x7d" : String).length = 1 := rfl
  simp [placeholderStr, String.length_append, h1, h2, h3]
  omega

theorem foldl_max_init_le (l : List Nat) : ∀ i : Nat, i ≤ l.foldl max i := by
  induction l with
  | nil => intro i; exact le_refl i
  | cons a t ih =>
    intro i
    exact le_trans (le_max_left i a) (ih (max i a))

theorem le_foldl_max (l : List Nat) (x : Nat) (hx : x ∈ l) :
    ∀ i : Nat, x ≤ l.foldl max i := by
  induction l with
  | nil => cases hx
  | cons a t ih =>
    intro i
    rcases List.mem_cons.mp hx with rfl | hm
    · exact le_trans (le_max_right i x) (foldl_max_init_le t (max i x))
    · exact ih hm (max i a)

theorem maxName_bound (ps : List Param) (p : Param) (hp : p ∈ ps) :
    p.name.length ≤ maxName ps :=
  le_foldl_max _ _ (List.mem_map_of_mem (fun q => q.name.length) hp) 0

theorem typeLens_of_all_typed (ps : List Param)
    (h : ∀ p ∈ ps, p.type ≠ none) :
    typeLens ps
      = Except.ok (ps.map (fun p => (p.type.getD "").length)) := by
  induction ps with
  | nil => rfl
  | cons q qs ih =>
    cases hq : q.type with
    | none => exact absurd hq (h q (List.mem_cons_self q qs))
    | some t =>
      simp only [typeLens, hq,
        ih (fun p hp => h p (List.mem_cons_of_mem q hp))]
      simp [hq]
      rfl

theorem maxTypeE_of_all_typed (ps : List Param)
    (h : ∀ p ∈ ps, p.type ≠ none) :
    maxTypeE ps = Except.ok (maxTypeVal ps) := by
  unfold maxTypeE maxTypeVal
  rw [typeLens_of_all_typed ps h]
  rfl

theorem maxTypeVal_bound (ps : List Param) (p : Param) (t : String)
    (hp : p ∈ ps) (ht : p.type = some t) : t.length ≤ maxTypeVal ps := by
  have : t.length = (p.type.getD "").length := by rw [ht]; rfl
  rw [this]
  exact le_foldl_max _ _
    (List.mem_map_of_mem (fun q => (q.type.getD "").length) hp) 0

theorem renderParamRow_typed_eval (col mN mT c : Nat) (p : Param)
    (t : String) (hp : p.type = some t) :
    renderParamRow col mN (Except.ok mT) c p =
      Except.ok (⟨"@param", spaces col ++ " ",
        placeholderStr c (escape t), spaces (col + (mT - t.length)),
        escape p.name, spaces (col + (mN - p.name.length)),
        placeholderStr (c + 1)
          ("[" ++ escape p.name ++ " description]")⟩, c + 2) := by
  simp [renderParamRow, hp, placeholder]

theorem renderParamRow_untyped_eval (col mN : Nat)
    (mTE : Except String Nat) (c : Nat) (p : Param)
    (hp : p.type = none) :
    renderParamRow col mN mTE c p =
      Except.ok (⟨"@param", spaces col ++ " ",
        placeholderStr c "[type]", spaces (col + 1),
        escape p.name, spaces (col + (mN - p.name.length)),
        placeholderStr (c + 1)
          ("[" ++ escape p.name ++ " description]")⟩, c + 2) := by
  simp [renderParamRow, hp, placeholder]
  rfl

theorem exceptOk_bind {α β : Type} (a : α) (f : α → Except String β) :
    (Except.ok a >>= f : Except String β) = f a := rfl

theorem renderParamRows_typed_cols (col mN mT δn δt d : Nat) :
    ∀ (c : Nat) (ps : List Param),
    (∀ p ∈ ps, ∃ t, p.type = some t ∧ t.length ≤ mT
      ∧ (escape t).length = t.length + δt) →
    (∀ p ∈ ps, p.name.length ≤ mN
      ∧ (escape p.name).length = p.name.length + δn) →
    (∀ k, k < c + 2 * ps.length → c ≤ k → (toString k).length = d) →
    ∃ rows, renderParamRows col mN (Except.ok mT) c ps
        = Except.ok (rows, c + 2 * ps.length)
      ∧ ∀ r ∈ rows, r.typeCol = 7 + col
        ∧ r.nameCol = 11 + 2 * col + d + δt + mT
        ∧ r.descCol = 11 + 3 * col + d + δt + mT + δn + mN := by
  intro c ps
  induction ps generalizing c with
  | nil =>
    intro _ _ _
    exact ⟨[], by simp [renderParamRows], by intro r hr; cases hr⟩
  | cons q qs ih =>
    intro hty hname hd
    obtain ⟨t, hqt, htle, htesc⟩ := hty q (List.mem_cons_self q qs)
    have hd' : ∀ k, k < (c + 2) + 2 * qs.length → (c + 2) ≤ k →
        (toString k).length = d := by
      intro k h1 h2
      refine hd k ?_ (by omega)
      simp only [List.length_cons]
      omega
    obtain ⟨rows', hrows', hcols'⟩ := ih (c + 2)
      (fun p hp => hty p (List.mem_cons_of_mem q hp))
      (fun p hp => hname p (List.mem_cons_of_mem q hp))
      hd'
    have hdc : (toString c).length = d := by
      refine hd c ?_ (le_refl c)
      simp only [List.length_cons]
      omega
    have hlen : (c + 2) + 2 * qs.length = c + 2 * (q :: qs).length := by
      simp only [List.length_cons]
      omega
    refine ⟨⟨"@param", spaces col ++ " ",
      placeholderStr c (escape t), spaces (col + (mT - t.length)),
      escape q.name, spaces (col + (mN - q.name.length)),
      placeholderStr (c + 1)
        ("[" ++ escape q.name ++ " description]")⟩ :: rows', ?_, ?_⟩
    · rw [← hlen]
      simp only [renderParamRows,
        renderParamRow_typed_eval col mN mT c q t hqt, exceptOk_bind,
        hrows']
    · intro r hr
      rcases List.mem_cons.mp hr with rfl | hm
      · have h6 : ("@param" : String).length = 6 := rfl
        have hsp : (" " : String).length = 1 := rfl
        obtain ⟨hnle, hnesc⟩ := hname q (List.mem_cons_self q qs)
        refine ⟨?_, ?_, ?_⟩
        · simp only [ParamLine.typeCol, String.length_append, h6, hsp,
            spaces_length]
          omega
        · simp only [ParamLine.nameCol, ParamLine.typeCol,
            String.length_append, h6, hsp, spaces_length,
            placeholderStr_length, htesc, hdc]
          omega
        · simp only [ParamLine.descCol, ParamLine.nameCol,
            ParamLine.typeCol, String.length_append, h6, hsp,
            spaces_length, placeholderStr_length, htesc, hdc, hnesc]
          omega
      · exact hcols' r hm

theorem renderParamRows_untyped_cols (col mN δn d : Nat)
    (mTE : Except String Nat) :
    ∀ (c : Nat) (ps : List Param),
    (∀ p ∈ ps, p.type = none) →
    (∀ p ∈ ps, p.name.length ≤ mN
      ∧ (escape p.name).length = p.name.length + δn) →
    (∀ k, k < c + 2 * ps.length → c ≤ k → (toString k).length = d) →
    ∃ rows, renderParamRows col mN mTE c ps
        = Except.ok (rows, c + 2 * ps.length)
      ∧ ∀ r ∈ rows, r.typeCol = 7 + col
        ∧ r.nameCol = 18 + 2 * col + d
        ∧ r.descCol = 18 + 3 * col + d + δn + mN := by
  intro c ps
  induction ps generalizing c with
  | nil =>
    intro _ _ _
    exact ⟨[], by simp [renderParamRows], by intro r hr; cases hr⟩
  | cons q qs ih =>
    intro hty hname hd
    have hqt : q.type = none := hty q (List.mem_cons_self q qs)
    have hd' : ∀ k, k < (c + 2) + 2 * qs.length → (c + 2) ≤ k →
        (toString k).length = d := by
      intro k h1 h2
      refine hd k ?_ (by omega)
      simp only [List.length_cons]
      omega
    obtain ⟨rows', hrows', hcols'⟩ := ih (c + 2)
      (fun p hp => hty p (List.mem_cons_of_mem q hp))
      (fun p hp => hname p (List.mem_cons_of_mem q hp))
      hd'
    have hdc : (toString c).length = d := by
      refine hd c ?_ (le_refl c)
      simp only [List.length_cons]
      omega
    have hlen : (c + 2) + 2 * qs.length = c + 2 * (q :: qs).length := by
      simp only [List.length_cons]
      omega
    refine ⟨⟨"@param", spaces col ++ " ",
      placeholderStr c "[type]", spaces (col + 1),
      escape q.name, spaces (col + (mN - q.name.length)),
      placeholderStr (c + 1)
        ("[" ++ escape q.name ++ " description]")⟩ :: rows', ?_, ?_⟩
    · rw [← hlen]
      simp only [renderParamRows,
        renderParamRow_untyped_eval col mN mTE c q hqt, exceptOk_bind,
        hrows']
    · intro r hr
      rcases List.mem_cons.mp hr with rfl | hm
      · have h6 : ("@param" : String).length = 6 := rfl
        have hsp : (" " : String).length = 1 := rfl
        have hty6 : ("[type]" : String).length = 6 := rfl
        obtain ⟨hnle, hnesc⟩ := hname q (List.mem_cons_self q qs)
        refine ⟨?_, ?_, ?_⟩
        · simp only [ParamLine.typeCol, String.length_append, h6, hsp,
            spaces_length]
          omega
        · simp only [ParamLine.nameCol, ParamLine.typeCol,
            String.length_append, h6, hsp, spaces_length,
            placeholderStr_length, hty6, hdc]
          omega
        · simp only [ParamLine.descCol, ParamLine.nameCol,
            ParamLine.typeCol, String.length_append, h6, hsp,
            spaces_length, placeholderStr_length, hty6, hdc, hnesc]
          omega
      · exact hcols' r hm

/-- C4 amended: the `@param` rows of a Function record are
column-aligned (each field starts at the same character column in
every row) provided the padding arithmetic is not skewed: escaping
changes every parameter name's length by the same amount `δn` and —
when the parameters are typed — every type's length by the same amount
`δt`, all parameters either have a type or all lack one (a mixture
raises an error instead), and every tab-stop number emitted for the
rows has the same digit count `d`.  The padding itself uses the
maximum raw name and type lengths with the configured minimum gutter,
as claimed. -/
theorem paramAlignment_amended (cfg : Config) (tokens : Tokens)
    (bl : List String) (c d δn δt : Nat)
    (hkind : tokens.type = "function")
    (hne : tokens.params ≠ [])
    (hname : ∀ p ∈ tokens.params,
      (escape p.name).length = p.name.length + δn)
    (hdigits : ∀ k, k < c + 2 * tokens.params.length → c ≤ k →
      (toString k).length = d)
    (hbranch : (∀ p ∈ tokens.params, p.type = none)
      ∨ (∀ p ∈ tokens.params, ∃ t, p.type = some t
          ∧ (escape t).length = t.length + δt)) :
    ∃ rows : List ParamLine, renderParamTags cfg tokens bl c
        = Except.ok (bl ++ [""] ++ rows.map ParamLine.flatten,
            c + 2 * tokens.params.length)
      ∧ ∀ r1 ∈ rows, ∀ r2 ∈ rows, r1.typeCol = r2.typeCol
          ∧ r1.nameCol = r2.nameCol ∧ r1.descCol = r2.descCol := by
  have hlen0 : tokens.params.length ≠ 0 :=
    fun h => hne (List.length_eq_zero.mp h)
  have hvar : tokens.type ≠ "variable" := by
    rw [hkind]
    decide
  have hnb : ∀ p ∈ tokens.params, p.name.length ≤ maxName tokens.params
      ∧ (escape p.name).length = p.name.length + δn :=
    fun p hp => ⟨maxName_bound tokens.params p hp, hname p hp⟩
  have hd' : ∀ k, k < c + 2 * tokens.params.length → c ≤ k →
      (toString k).length = d := hdigits
  rcases hbranch with huty | hty
  · obtain ⟨rows, hrows, hcols⟩ :=
      renderParamRows_untyped_cols cfg.columnSpacing
        (maxName tokens.params) δn d (maxTypeE tokens.params) c
        tokens.params huty hnb hd'
    refine ⟨rows, ?_, ?_⟩
    · unfold renderParamTags
      rw [if_pos ⟨hlen0, hvar⟩]
      simp only [hrows, exceptOk_bind]
    · intro r1 h1 r2 h2
      obtain ⟨a1, b1, c1⟩ := hcols r1 h1
      obtain ⟨a2, b2, c2⟩ := hcols r2 h2
      exact ⟨by rw [a1, a2], by rw [b1, b2], by rw [c1, c2]⟩
  · have hty' : ∀ p ∈ tokens.params, p.type ≠ none := by
      intro p hp
      obtain ⟨t, ht, _⟩ := hty p hp
      rw [ht]
      exact fun h => Option.noConfusion h
    have htyb : ∀ p ∈ tokens.params, ∃ t, p.type = some t
        ∧ t.length ≤ maxTypeVal tokens.params
        ∧ (escape t).length = t.length + δt := by
      intro p hp
      obtain ⟨t, ht, hesc⟩ := hty p hp
      exact ⟨t, ht, maxTypeVal_bound tokens.params p t hp ht, hesc⟩
    obtain ⟨rows, hrows, hcols⟩ :=
      renderParamRows_typed_cols cfg.columnSpacing
        (maxName tokens.params) (maxTypeVal tokens.params) δn δt d c
        tokens.params htyb hnb hd'
    refine ⟨rows, ?_, ?_⟩
    · unfold renderParamTags
      rw [if_pos ⟨hlen0, hvar⟩, maxTypeE_of_all_typed tokens.params hty']
      simp only [hrows, exceptOk_bind]
    · intro r1 h1 r2 h2
      obtain ⟨a1, b1, c1⟩ := hcols r1 h1
      obtain ⟨a2, b2, c2⟩ := hcols r2 h2
      exact ⟨by rw [a1, a2], by rw [b1, b2], by rw [c1, c2]⟩

/-- C4 witness: the all-typed record `goodTok` (`$a : int`,
`$bb : bool`, column spacing 2, counters 2..5 all single-digit,
every name gains one character under escaping) renders into
column-aligned rows. -/
theorem paramAlignment_amended_witness :
    (goodTok.type = "function" ∧ goodTok.params ≠ []
      ∧ (∀ p ∈ goodTok.params,
          (escape p.name).length = p.name.length + 1)
      ∧ (∀ k, k < 2 + 2 * goodTok.params.length → 2 ≤ k →
          (toString k).length = 1))
    ∧ ∃ rows : List ParamLine, renderParamTags cfg0 goodTok [] 2
        = Except.ok ([] ++ [""] ++ rows.map ParamLine.flatten,
            2 + 2 * goodTok.params.length)
      ∧ ∀ r1 ∈ rows, ∀ r2 ∈ rows, r1.typeCol = r2.typeCol
          ∧ r1.nameCol = r2.nameCol ∧ r1.descCol = r2.descCol :=
  ⟨⟨by decide, by decide, by decide, by decide⟩,
   paramAlignment_amended cfg0 goodTok [] 2 1 1 0 (by decide) (by decide)
     (by decide) (by decide)
     (Or.inr (by
       intro p hp
       rcases List.mem_cons.mp hp with rfl | hp2
       · exact ⟨"int", rfl, rfl⟩
       · rcases List.mem_cons.mp hp2 with rfl | hp3
         · exact ⟨"bool", rfl, rfl⟩
         · cases hp3))⟩
